import Mathlib

/-!
Verification of the type-erased JSON codec registry of
include/behaviortree_cpp/json_export.h (class JsonExporter, the
BT_JSON_CONVERTER macro and RegisterJsonDefinition).

Embedding notes:
* nlohmann::json object nodes are modelled by the inductive `Json`, with
  object fields kept as an association list with unique keys; js[name] = v
  is `Json.setField`, js.at(name) / js.contains are via `Json.getField`.
* std::unordered_map is modelled as an association list with unique keys.
  Crucially, unordered_map::insert does NOT overwrite an existing key:
  `ainsert` keeps the existing entry, exactly like the source's
  to_json_converters_.insert / type_names_.insert calls.
* BT::Any is an external collaborator (safe_any.hpp is not part of the
  analysed sources); it is modelled by `AnyV`, a runtime type id paired
  with the concrete value state, and its castPtr is modelled per the
  documented contract (pointer if the type matches, null otherwise).
* A C++ concrete type T, as seen by this header, is modelled abstractly
  by `CppType`: its typeid, its demangled name, its ADL to_json /
  from_json functions, and the state of a default-constructed instance.
  The functions generated by BT_JSON_CONVERTER for a declared field list
  are `to_json` / `from_json` below, and `macroType` packages them.
* Concrete C++ values of a struct are represented by their field state,
  an association list from field name to the JSON-representable field
  value (field encoding of scalars is the identity at this granularity).
* C++ exceptions thrown during decode (js.at on a missing key) are
  modelled with `Except`; dereferencing a null castPtr result inside the
  stored encoder closure is a fault, modelled by `Option` with `none`.
-/

namespace BTJson

/-- Model of an nlohmann::json tree node: null, number, string, object. -/
inductive Json where
  | null : Json
  | num (q : ℚ) : Json
  | str (s : String) : Json
  | obj (fields : List (String × Json)) : Json

/-- Association-list lookup, first match wins (unique keys are kept as an
invariant by the operations below). -/
def alookup {α β : Type} [DecidableEq α] : List (α × β) → α → Option β
  | [], _ => none
  | (k, v) :: rest, k' => if k = k' then some v else alookup rest k'

/-- Association-list overwrite-or-append, the semantics of nlohmann's
js[name] = v on an object node. -/
def aset {α β : Type} [DecidableEq α] : List (α × β) → α → β → List (α × β)
  | [], k, v => [(k, v)]
  | (k1, v1) :: rest, k, v =>
      if k1 = k then (k, v) :: rest else (k1, v1) :: aset rest k v

/-- Association-list insert with std::unordered_map::insert semantics:
if the key is already present the map is left unchanged (the insert call
returns with second = false); otherwise the pair is added. -/
def ainsert {α β : Type} [DecidableEq α] (m : List (α × β)) (k : α) (v : β) :
    List (α × β) :=
  if (alookup m k).isSome then m else (k, v) :: m

/-- Field read on a node: the field value on an object that has the key,
none otherwise (a missing key makes js.at throw in the source). -/
def Json.getField : Json → String → Option Json
  | .obj fs, k => alookup fs k
  | _, _ => none

/-- Field write js[k] = v: updates an object in place; operator[] on a
null node first turns it into an object. -/
def Json.setField : Json → String → Json → Json
  | .obj fs, k, v => .obj (aset fs k v)
  | _, k, v => .obj [(k, v)]

/-- Error taxonomy of the decode/encode paths; the source surfaces these
through nonstd::expected with a message string, modelled as tags. -/
inductive JError where
  | missingField (name : String) : JError
  | missingTypeTag : JError
  | unknownTypeName : JError
  | unregisteredType : JError
deriving DecidableEq

/-- Concrete value state of a C++ struct: field name to field value. -/
abbrev ValState := List (String × Json)

/-- Model of BT::Any: the runtime typeid plus the stored value state. -/
structure AnyV where
  tid : Nat
  val : ValState

/-- Modelled from the spec: BT::Any::castPtr lives in safe_any.hpp, which
is not among the analysed sources; per the ErasedValue contract
(castTo gives the value exactly when the runtime TypeId matches, and a
failure/null otherwise) it returns the stored state iff the typeid
matches. -/
def AnyV.castPtr (a : AnyV) (tid : Nat) : Option ValState :=
  if a.tid = tid then some a.val else none

/-- The to_json function that the BT_JSON_CONVERTER macro generates for a
type named typeName with the given add_field declarations: it writes
js[name] = field value for each declared field in order, then stamps
js["__type"] = the type name. -/
def to_json (typeName : String) (fields : List String) (p : ValState)
    (js : Json) : Json :=
  (fields.foldl (fun j f => j.setField f ((alookup p f).getD Json.null)) js).setField
    "__type" (Json.str typeName)

/-- The from_json function that the BT_JSON_CONVERTER macro generates: for
each declared field in order it runs js.at(name).get_to(field), which
throws (here: returns an error) when the key is absent, and otherwise
assigns the node value to the field of the instance being populated. -/
def from_json (fields : List String) (js : Json) (p : ValState) :
    Except JError ValState :=
  match fields with
  | [] => .ok p
  | f :: rest =>
      match js.getField f with
      | none => .error (.missingField f)
      | some x => from_json rest js (aset p f x)

/-- A C++ concrete type as consumed by JsonExporter::addConverter: its
typeid, BT::demangle(typeid(T)), its ADL to_json and from_json, and the
state of a default-constructed instance T{}. -/
structure CppType where
  tid : Nat
  demangled : String
  toJsonFn : ValState → Json → Json
  fromJsonFn : Json → ValState → Except JError ValState
  defaultVal : ValState

/-- The CppType of a struct whose to_json/from_json were generated by
BT_JSON_CONVERTER(Type, value) with the given field declarations. -/
def macroType (tid : Nat) (demangled typeName : String) (fields : List String)
    (defaultVal : ValState) : CppType :=
  { tid := tid
    demangled := demangled
    toJsonFn := to_json typeName fields
    fromJsonFn := fun js p => from_json fields js p
    defaultVal := defaultVal }

/-- Stored encoder closures: given the Any and the destination node they
either produce the written destination, or fault (none) when the closure
dereferences the null result of a failed castPtr. -/
abbrev ToConv := AnyV → Json → Option Json

/-- Stored decoder closures: node to freshly built Any or a decode error. -/
abbrev FromConv := Json → Except JError AnyV

/-- The three tables of JsonExporter: typeid to encoder, typeid to
decoder, and type-name string to typeid. -/
structure Registry where
  to_json_converters : List (Nat × ToConv)
  from_json_converters : List (Nat × FromConv)
  type_names : List (String × Nat)

/-- The registry of a freshly constructed JsonExporter. -/
def emptyRegistry : Registry :=
  { to_json_converters := [], from_json_converters := [], type_names := [] }

/-- The encoder closure addConverter builds for T: it calls
entry.castPtr of T and dereferences the result unchecked, passing it to
to_json; a mismatched typeid therefore faults (none) instead of
reporting anything. -/
def toConvOf (td : CppType) : ToConv := fun entry dst =>
  match entry.castPtr td.tid with
  | some v => some (td.toJsonFn v dst)
  | none => none

/-- The decoder closure addConverter builds for T: default-construct a T,
run from_json on it, wrap the populated value in a new BT::Any. -/
def fromConvOf (td : CppType) : FromConv := fun js =>
  (td.fromJsonFn js td.defaultVal).map (fun v => { tid := td.tid, val := v })

/-- JsonExporter::addConverter for T, following the source order: insert
the encoder under typeid(T); build json js = T{} from a default instance;
if js contains a "__type" string, insert that name; insert the demangled
name; insert the decoder under typeid(T). All four inserts are
unordered_map/map insert calls, which keep a pre-existing entry. -/
def addConverter (td : CppType) (r : Registry) : Registry :=
  let r1 : Registry :=
    { r with to_json_converters := ainsert r.to_json_converters td.tid (toConvOf td) }
  let js : Json := td.toJsonFn td.defaultVal Json.null
  let r2 : Registry :=
    match js.getField "__type" with
    | some (Json.str s) => { r1 with type_names := ainsert r1.type_names s td.tid }
    | _ => r1
  let r3 : Registry :=
    { r2 with type_names := ainsert r2.type_names td.demangled td.tid }
  { r3 with from_json_converters := ainsert r3.from_json_converters td.tid (fromConvOf td) }

/-- Modelled from the spec: the body of
JsonExporter::toJson(const BT::Any&, nlohmann::json&) const is declared
in json_export.h but defined in a translation unit that is not among the
analysed sources; per the encode path of the spec it looks the Any's
runtime typeid up in the encoder table, returns false when no converter
is registered, and otherwise runs the stored encoder and returns true.
The registry is threaded through unchanged (the member function is
const). The outer Option is the fault channel of the stored closure. -/
def toJson (r : Registry) (any : AnyV) (dst : Json) :
    Registry × Option (Bool × Json) :=
  match alookup r.to_json_converters any.tid with
  | none => (r, some (false, dst))
  | some f => (r, (f any dst).map (fun j => (true, j)))

/-- Modelled from the spec: the body of
JsonExporter::fromJson(const nlohmann::json&, std::type_index) const is
not among the analysed sources; per the direct-dispatch decode path it
looks the typeid up in the decoder table, fails with an
unregistered-type error when absent, and otherwise runs the stored
decoder. Const member: the registry is returned unchanged. -/
def fromJsonType (r : Registry) (source : Json) (tid : Nat) :
    Registry × Except JError AnyV :=
  match alookup r.from_json_converters tid with
  | none => (r, .error .unregisteredType)
  | some f => (r, f source)

/-- Modelled from the spec: the body of
JsonExporter::fromJson(const nlohmann::json&) const is not among the
analysed sources; per the type-inferred decode path it requires the node
to carry a "__type" string field (else a missing-type-tag error),
resolves that string through the name table (else an unknown-type-name
error), and then proceeds exactly as the direct-dispatch path. Const
member: the registry is returned unchanged. -/
def fromJson (r : Registry) (source : Json) : Registry × Except JError AnyV :=
  match source.getField "__type" with
  | some (Json.str s) =>
      match alookup r.type_names s with
      | some tid => fromJsonType r source tid
      | none => (r, .error .unknownTypeName)
  | _ => (r, .error .missingTypeTag)

/-- The value state of a struct whose declared fields hold g applied to
the field name: the generic way to quantify over all values of a
macro-declared type. -/
def mkVal (fields : List String) (g : String → Json) : ValState :=
  fields.map (fun n => (n, g n))

/-- The running example of the header documentation: struct Point2D with
double members x and y, declared with BT_JSON_CONVERTER(Point2D, point)
{ add_field("x", &point.x); add_field("y", &point.y); }. Its typeid is
0, BT::demangle yields "Point2D", T{} value-initialises both doubles to
zero. -/
def point2DType : CppType :=
  macroType 0 "Point2D" "Point2D" ["x", "y"] [("x", Json.num 0), ("y", Json.num 0)]

/-- The registry after RegisterJsonDefinition of Point2D on a fresh
JsonExporter. -/
def p2dRegistry : Registry :=
  addConverter point2DType emptyRegistry

/-- The node of the spec example: the object x=1.0, y=2.0 with the
stamped type tag. -/
def p2dNode : Json :=
  Json.obj [("x", Json.num 1), ("y", Json.num 2), ("__type", Json.str "Point2D")]

/-- The erased Point2D value x=1.0, y=2.0. -/
def p12 : AnyV :=
  { tid := 0, val := [("x", Json.num 1), ("y", Json.num 2)] }

/-- A second example type for name-collision scenarios: a Point struct in
namespace nsA, declared as BT_JSON_CONVERTER(Point, p) inside nsA, so
the macro stamps the short tag "Point" while demangling gives the
qualified name. -/
def pointA : CppType :=
  macroType 1 "nsA::Point" "Point" ["x"] [("x", Json.num 0)]

/-- A distinct Point struct in namespace nsB: different typeid and
demangled name, but the same stamped tag "Point". -/
def pointB : CppType :=
  macroType 2 "nsB::Point" "Point" ["x"] [("x", Json.num 0)]

/-- A Point2D struct declared inside namespace nsX with
BT_JSON_CONVERTER(Point2D, p): the macro stamps the unqualified tag
"Point2D" (the literal macro argument), while demangling yields the
qualified "nsX::Point2D". -/
def pointNsX : CppType :=
  macroType 11 "nsX::Point2D" "Point2D" ["x", "y"]
    [("x", Json.num 0), ("y", Json.num 0)]

/-- A distinct Point2D struct at global scope: its demangled name
"Point2D" coincides with the tag that pointNsX stamps. -/
def pointGlobal : CppType :=
  macroType 12 "Point2D" "Point2D" ["x", "y"]
    [("x", Json.num 0), ("y", Json.num 0)]

/-- Number of entries of an association list carrying a given key. -/
def keyCount {α β : Type} [DecidableEq α] (m : List (α × β)) (k : α) : Nat :=
  m.countP (fun p => decide (p.1 = k))

/-- Every key occurs at most once: the representation invariant that makes
the association list a faithful model of a map. -/
def uniqKeys {α β : Type} [DecidableEq α] (m : List (α × β)) : Prop :=
  ∀ k, keyCount m k ≤ 1

section AListLemmas

variable {α β : Type} [DecidableEq α]

theorem alookup_aset_self (m : List (α × β)) (k : α) (v : β) :
    alookup (aset m k v) k = some v := by
  induction m with
  | nil => simp [aset, alookup]
  | cons p rest ih =>
      by_cases h : p.1 = k
      · simp [aset, h, alookup]
      · simp [aset, h, alookup, ih]

theorem alookup_aset_ne (m : List (α × β)) (k k' : α) (v : β) (h : k ≠ k') :
    alookup (aset m k v) k' = alookup m k' := by
  induction m with
  | nil => simp [aset, alookup, h]
  | cons p rest ih =>
      by_cases hp : p.1 = k
      · simp [aset, hp, alookup, h]
      · simp [aset, hp, alookup, ih]

theorem ainsert_of_isSome (m : List (α × β)) (k : α) (v : β)
    (h : (alookup m k).isSome) : ainsert m k v = m := by
  simp [ainsert, h]

theorem ainsert_of_none (m : List (α × β)) (k : α) (v : β)
    (h : alookup m k = none) : ainsert m k v = (k, v) :: m := by
  simp [ainsert, h]

theorem alookup_ainsert_ne (m : List (α × β)) (k k' : α) (v : β) (h : k ≠ k') :
    alookup (ainsert m k v) k' = alookup m k' := by
  by_cases hs : (alookup m k).isSome
  · simp [ainsert, hs]
  · simp [ainsert, hs, alookup, h]

/-- Insert never disturbs an existing binding: the earlier registration of
a name wins over every later one. -/
theorem alookup_ainsert_preserve (m : List (α × β)) (k k' : α) (v w : β)
    (h : alookup m k' = some w) : alookup (ainsert m k v) k' = some w := by
  by_cases hk : k = k'
  · subst hk
    simp [ainsert, h]
  · rw [alookup_ainsert_ne m k k' v hk, h]

theorem alookup_ainsert_isSome (m : List (α × β)) (k : α) (v : β) :
    (alookup (ainsert m k v) k).isSome := by
  by_cases hs : (alookup m k).isSome
  · simp [ainsert, hs]
  · simp [ainsert, hs, alookup]

/-- A key that is either unbound or already bound to v is bound to exactly
v after any insert of value v (under the same or another key). -/
theorem alookup_ainsert_or (m : List (α × β)) (k k' : α) (v : β)
    (h : alookup m k' = none ∨ alookup m k' = some v) :
    alookup (ainsert m k v) k' = none ∨ alookup (ainsert m k v) k' = some v := by
  by_cases hk : k = k'
  · subst hk
    rcases h with h | h
    · right
      simp [ainsert, h, alookup]
    · right
      simp [ainsert, h]
  · rw [alookup_ainsert_ne m k k' v hk]
    exact h

theorem alookup_ainsert_self_of_or (m : List (α × β)) (k : α) (v : β)
    (h : alookup m k = none ∨ alookup m k = some v) :
    alookup (ainsert m k v) k = some v := by
  rcases h with h | h
  · simp [ainsert, h, alookup]
  · simp [ainsert, h]

theorem keyCount_eq_zero_of_none (m : List (α × β)) (k : α)
    (h : alookup m k = none) : keyCount m k = 0 := by
  induction m with
  | nil => simp [keyCount]
  | cons p rest ih =>
      by_cases hp : p.1 = k
      · simp [alookup, hp] at h
      · have hrest : alookup rest k = none := by
          simpa [alookup, hp] using h
        simpa [keyCount, hp] using ih hrest

theorem keyCount_ainsert_of_none (m : List (α × β)) (k : α) (v : β)
    (h : alookup m k = none) : keyCount (ainsert m k v) k = 1 := by
  have h0 : m.countP (fun p => decide (p.1 = k)) = 0 :=
    keyCount_eq_zero_of_none m k h
  rw [ainsert_of_none m k v h]
  simp [keyCount, List.countP_cons, h0]

theorem keyCount_ainsert_ne (m : List (α × β)) (k k' : α) (v : β) (h : k ≠ k') :
    keyCount (ainsert m k v) k' = keyCount m k' := by
  by_cases hs : (alookup m k).isSome
  · simp [ainsert, hs]
  · simp [ainsert, hs, keyCount, h]

/-- Insert keeps the unique-keys invariant of every table. -/
theorem uniqKeys_ainsert (m : List (α × β)) (k : α) (v : β)
    (h : uniqKeys m) : uniqKeys (ainsert m k v) := by
  intro k'
  by_cases hk : k = k'
  · subst hk
    rcases hn : alookup m k with _ | w
    · simp [keyCount_ainsert_of_none m k v hn]
    · have : (alookup m k).isSome := by simp [hn]
      rw [ainsert_of_isSome m k v this]
      exact h k
  · rw [keyCount_ainsert_ne m k k' v hk]
    exact h k'

end AListLemmas

section JsonLemmas

theorem getField_setField_self (js : Json) (k : String) (v : Json) :
    (js.setField k v).getField k = some v := by
  cases js with
  | obj fs => simp [Json.setField, Json.getField, alookup_aset_self]
  | null => simp [Json.setField, Json.getField, alookup]
  | num q => simp [Json.setField, Json.getField, alookup]
  | str s => simp [Json.setField, Json.getField, alookup]

theorem getField_setField_ne (js : Json) (k k' : String) (v : Json)
    (h : k ≠ k') : (js.setField k v).getField k' = js.getField k' := by
  cases js with
  | obj fs => simp [Json.setField, Json.getField, alookup_aset_ne _ _ _ _ h]
  | null => simp [Json.setField, Json.getField, alookup, h]
  | num q => simp [Json.setField, Json.getField, alookup, h]
  | str s => simp [Json.setField, Json.getField, alookup, h]

theorem foldl_setField_not_mem (fields : List String) (h : String → Json)
    (js : Json) (n : String) (hn : n ∉ fields) :
    (fields.foldl (fun j f => j.setField f (h f)) js).getField n = js.getField n := by
  induction fields generalizing js with
  | nil => rfl
  | cons f rest ih =>
      have hf : f ≠ n := fun he => hn (he ▸ List.mem_cons_self f rest)
      have hrest : n ∉ rest := fun hm => hn (List.mem_cons_of_mem f hm)
      rw [List.foldl_cons, ih (js.setField f (h f)) hrest,
        getField_setField_ne js f n (h f) hf]

theorem foldl_setField_mem (fields : List String) (h : String → Json)
    (js : Json) (n : String) (hn : n ∈ fields) :
    (fields.foldl (fun j f => j.setField f (h f)) js).getField n = some (h n) := by
  induction fields generalizing js with
  | nil => cases hn
  | cons f rest ih =>
      rw [List.foldl_cons]
      by_cases hr : n ∈ rest
      · exact ih (js.setField f (h f)) hr
      · have hf : n = f := by
          rcases List.mem_cons.mp hn with he | he
          · exact he
          · exact absurd he hr
        subst hf
        rw [foldl_setField_not_mem rest h _ n hr, getField_setField_self]

theorem alookup_mkVal (fields : List String) (g : String → Json) (n : String)
    (hn : n ∈ fields) : alookup (mkVal fields g) n = some (g n) := by
  induction fields with
  | nil => cases hn
  | cons f rest ih =>
      by_cases hf : f = n
      · subst hf
        simp [mkVal, alookup]
      · rcases List.mem_cons.mp hn with he | he
        · exact absurd he.symm hf
        · simpa [mkVal, alookup, hf] using ih he

/-- Every declared field of the value is present in the encoded node, with
exactly the value's field value, as long as no declared field collides
with the reserved "__type" tag that the macro stamps last. -/
theorem to_json_getField_mem (typeName : String) (fields : List String)
    (g : String → Json) (js : Json) (n : String)
    (hty : "__type" ∉ fields) (hn : n ∈ fields) :
    (to_json typeName fields (mkVal fields g) js).getField n = some (g n) := by
  have hne : ("__type" : String) ≠ n := fun he => hty (he ▸ hn)
  unfold to_json
  rw [getField_setField_ne _ _ _ _ hne]
  have hfun :
      (fun (j : Json) (f : String) =>
          j.setField f ((alookup (mkVal fields g) f).getD Json.null)) =
        fun (j : Json) (f : String) =>
          j.setField f (if f ∈ fields then g f else
            ((alookup (mkVal fields g) f).getD Json.null)) := by
    funext (j : Json) (f : String)
    by_cases hf : f ∈ fields
    · rw [alookup_mkVal fields g f hf]
      simp [hf]
    · simp [hf]
  rw [hfun,
    foldl_setField_mem fields
      (fun f => if f ∈ fields then g f else ((alookup (mkVal fields g) f).getD Json.null))
      js n hn]
  simp [hn]

/-- The encoded node always carries the stamped "__type" tag. -/
theorem to_json_getField_tag (typeName : String) (fields : List String)
    (p : ValState) (js : Json) :
    (to_json typeName fields p js).getField "__type" = some (Json.str typeName) := by
  unfold to_json
  exact getField_setField_self _ _ _

/-- Decode success: when every declared field is present in the node with
value g of its name, the macro-generated from_json succeeds, the
populated instance holds g on every declared field, and every other part
of the instance keeps its prior (default) state. -/
theorem from_json_ok (fields : List String) (js : Json) (g : String → Json)
    (p0 : ValState) (hf : ∀ f ∈ fields, js.getField f = some (g f)) :
    ∃ v, from_json fields js p0 = .ok v ∧
      (∀ n ∈ fields, alookup v n = some (g n)) ∧
      (∀ n, n ∉ fields → alookup v n = alookup p0 n) := by
  induction fields generalizing p0 with
  | nil =>
      refine ⟨p0, rfl, ?_, ?_⟩
      · intro n hn
        cases hn
      · intro n _
        rfl
  | cons f rest ih =>
      have hget : js.getField f = some (g f) := hf f (List.mem_cons_self f rest)
      have hrest : ∀ x ∈ rest, js.getField x = some (g x) := fun x hx =>
        hf x (List.mem_cons_of_mem f hx)
      rcases ih (aset p0 f (g f)) hrest with ⟨v, hv, hmem, hout⟩
      refine ⟨v, ?_, ?_, ?_⟩
      · simp only [from_json, hget]
        exact hv
      · intro n hn
        by_cases hr : n ∈ rest
        · exact hmem n hr
        · have hnf : n = f := by
            rcases List.mem_cons.mp hn with he | he
            · exact he
            · exact absurd he hr
          subst hnf
          rw [hout n hr, alookup_aset_self]
      · intro n hn
        have hnf : n ≠ f := fun he => hn (he ▸ List.mem_cons_self f rest)
        have hnr : n ∉ rest := fun hm => hn (List.mem_cons_of_mem f hm)
        rw [hout n hnr, alookup_aset_ne _ _ _ _ (fun he => hnf he.symm)]

/-- Decode failure: as soon as some declared field is absent from the
node, the macro-generated from_json raises a missing-field error for a
field that is indeed absent; it never fills a default. -/
theorem from_json_missing (fields : List String) (js : Json) (p0 : ValState)
    (hm : ∃ n ∈ fields, js.getField n = none) :
    ∃ m, from_json fields js p0 = .error (.missingField m) ∧
      js.getField m = none := by
  induction fields generalizing p0 with
  | nil =>
      rcases hm with ⟨n, hn, _⟩
      cases hn
  | cons f rest ih =>
      rcases hget : js.getField f with _ | x
      · exact ⟨f, by simp only [from_json, hget], hget⟩
      · have hrest : ∃ n ∈ rest, js.getField n = none := by
          rcases hm with ⟨n, hn, hnone⟩
          rcases List.mem_cons.mp hn with he | he
          · subst he
            rw [hget] at hnone
            cases hnone
          · exact ⟨n, he, hnone⟩
        rcases ih (aset p0 f x) hrest with ⟨m, hrun, hnone⟩
        exact ⟨m, by simp only [from_json, hget]; exact hrun, hnone⟩

end JsonLemmas

section RegistryLemmas

/-- addConverter touches the encoder table exactly once, with an
unordered_map insert under typeid(T). -/
theorem addConverter_to (td : CppType) (r : Registry) :
    (addConverter td r).to_json_converters =
      ainsert r.to_json_converters td.tid (toConvOf td) := by
  rcases h : (td.toJsonFn td.defaultVal Json.null).getField "__type" with _ | j
  · simp [addConverter, h]
  · cases j <;> simp [addConverter, h]

/-- addConverter touches the decoder table exactly once, with an
unordered_map insert under typeid(T). -/
theorem addConverter_from (td : CppType) (r : Registry) :
    (addConverter td r).from_json_converters =
      ainsert r.from_json_converters td.tid (fromConvOf td) := by
  rcases h : (td.toJsonFn td.defaultVal Json.null).getField "__type" with _ | j
  · simp [addConverter, h]
  · cases j <;> simp [addConverter, h]

/-- The name table after addConverter: first the optional insert of the
"__type" string recovered from the JSON of a default-constructed
instance, then the insert of the demangled name. -/
theorem addConverter_names (td : CppType) (r : Registry) :
    (addConverter td r).type_names =
      ainsert
        (match (td.toJsonFn td.defaultVal Json.null).getField "__type" with
          | some (Json.str s) => ainsert r.type_names s td.tid
          | _ => r.type_names)
        td.demangled td.tid := by
  rcases h : (td.toJsonFn td.defaultVal Json.null).getField "__type" with _ | j
  · simp [addConverter, h]
  · cases j <;> simp [addConverter, h]

theorem alookup_ainsert_isSome_preserve {α β : Type} [DecidableEq α]
    (m : List (α × β)) (k k' : α) (v : β) (h : (alookup m k').isSome) :
    (alookup (ainsert m k v) k').isSome := by
  rcases ho : alookup m k' with _ | w
  · rw [ho] at h
    cases h
  · rw [alookup_ainsert_preserve m k k' v w ho]
    rfl

end RegistryLemmas

section FrameLemmas

theorem toJson_fst (r : Registry) (a : AnyV) (dst : Json) :
    (toJson r a dst).1 = r := by
  rcases h : alookup r.to_json_converters a.tid with _ | f
  · simp [toJson, h]
  · simp [toJson, h]

theorem fromJsonType_fst (r : Registry) (src : Json) (tid : Nat) :
    (fromJsonType r src tid).1 = r := by
  rcases h : alookup r.from_json_converters tid with _ | f
  · simp [fromJsonType, h]
  · simp [fromJsonType, h]

theorem fromJson_fst (r : Registry) (src : Json) :
    (fromJson r src).1 = r := by
  rcases h : src.getField "__type" with _ | j
  · simp [fromJson, h]
  · cases j with
    | str s =>
        rcases hn : alookup r.type_names s with _ | tid
        · simp [fromJson, h, hn]
        · simp [fromJson, h, hn, fromJsonType_fst]
    | null => simp [fromJson, h]
    | num q => simp [fromJson, h]
    | obj fs => simp [fromJson, h]

end FrameLemmas

/-- Claim C9: for the Point2D struct declared with BT_JSON_CONVERTER and
registered, encoding x=1.0, y=2.0 yields exactly the object with fields
x, y and the stamped tag "__type" = "Point2D", and the type-inferred
fromJson on that exact node reconstructs the original erased value
without the caller supplying the typeid. -/
theorem c9_point2d_example :
    (toJson p2dRegistry p12 Json.null).2 = some (true, p2dNode) ∧
    (fromJson p2dRegistry p2dNode).2 = .ok p12 :=
  ⟨rfl, rfl⟩

/-- Claim C4: encoding an erased value whose runtime typeid has no
registered converter returns false to the caller with the destination
untouched: a clean, reported failure, never a fault (none) and never a
node produced by some other type's converter. -/
theorem c4_unregistered_encode (r : Registry) (a : AnyV) (dst : Json)
    (h : alookup r.to_json_converters a.tid = none) :
    (toJson r a dst).2 = some (false, dst) := by
  simp [toJson, h]

theorem c4_unregistered_encode_witness :
    (toJson emptyRegistry { tid := 5, val := [] } Json.null).2 =
      some (false, Json.null) :=
  c4_unregistered_encode emptyRegistry { tid := 5, val := [] } Json.null rfl

/-- Claim C5: the type-inferred fromJson fails with the missing-type-tag
error on every node that does not carry a "__type" string field, and
when the tag is present and resolvable through the name table it
proceeds exactly as the direct dispatch on the resolved typeid. -/
theorem c5_missing_tag (r : Registry) (src : Json) :
    ((∀ s, src.getField "__type" ≠ some (Json.str s)) →
       (fromJson r src).2 = .error .missingTypeTag) ∧
    (∀ s tid, src.getField "__type" = some (Json.str s) →
       alookup r.type_names s = some tid →
       fromJson r src = fromJsonType r src tid) := by
  constructor
  · intro h
    rcases hg : src.getField "__type" with _ | j
    · simp [fromJson, hg]
    · cases j with
      | str s => exact absurd hg (h s)
      | null => simp [fromJson, hg]
      | num q => simp [fromJson, hg]
      | obj fs => simp [fromJson, hg]
  · intro s tid hg hn
    simp [fromJson, hg, hn]

theorem c5_missing_tag_witness :
    (fromJson p2dRegistry (Json.obj [("x", Json.num 1), ("y", Json.num 2)])).2 =
        .error .missingTypeTag ∧
    fromJson p2dRegistry p2dNode = fromJsonType p2dRegistry p2dNode 0 := by
  constructor
  · exact (c5_missing_tag p2dRegistry (Json.obj [("x", Json.num 1), ("y", Json.num 2)])).1
      (by intro s hs; simp [Json.getField, alookup] at hs)
  · exact (c5_missing_tag p2dRegistry p2dNode).2 "Point2D" 0 rfl rfl

/-- Claim C8: toJson and both fromJson entry points are const member
functions: they leave all three registry tables unchanged; only
addConverter mutates the registry. -/
theorem c8_frame (r : Registry) (a : AnyV) (dst src : Json) (tid : Nat) :
    (toJson r a dst).1 = r ∧ (fromJson r src).1 = r ∧
      (fromJsonType r src tid).1 = r :=
  ⟨toJson_fst r a dst, fromJson_fst r src, fromJsonType_fst r src tid⟩

/-- Claim C7 counterexample: the stored encoder closure for Point2D,
handed an erased value of a different runtime typeid, does not report a
type-mismatch error: it dereferences the null result of castPtr
unchecked, which is the fault outcome none; in particular no result of
any kind is produced. -/
theorem c7_counterexample :
    toConvOf point2DType { tid := 1, val := [] } Json.null = none ∧
    ∀ js, toConvOf point2DType { tid := 1, val := [] } Json.null ≠ some js := by
  constructor
  · rfl
  · intro js h
    simp [toConvOf, AnyV.castPtr, point2DType, macroType] at h

/-- Claim C7 (amended): the stored encoder closure performs no defensive
check at all; on every erased value whose runtime typeid differs from
the registered type the cast comes back null and the unguarded
dereference is a fault (modelled none), not a reported type-mismatch
error. -/
theorem c7_no_guard (td : CppType) (a : AnyV) (dst : Json)
    (h : a.tid ≠ td.tid) : toConvOf td a dst = none := by
  simp [toConvOf, AnyV.castPtr, h]

theorem c7_no_guard_witness :
    toConvOf pointA { tid := 7, val := [] } Json.null = none :=
  c7_no_guard pointA { tid := 7, val := [] } Json.null (by decide)

/-- Claim C2: registering the same type T twice leaves exactly one entry
for typeid(T) in the encoder table and one in the decoder table, and the
converters observed afterwards are exactly the ones a registration of T
builds (both registrations of the same T build the same closures, so the
behavior after the second call is the second registration's). -/
theorem c2_reregistration (td : CppType) (r : Registry)
    (h1 : alookup r.to_json_converters td.tid = none)
    (h2 : alookup r.from_json_converters td.tid = none) :
    keyCount (addConverter td (addConverter td r)).to_json_converters td.tid = 1 ∧
    keyCount (addConverter td (addConverter td r)).from_json_converters td.tid = 1 ∧
    alookup (addConverter td (addConverter td r)).to_json_converters td.tid =
      some (toConvOf td) ∧
    alookup (addConverter td (addConverter td r)).from_json_converters td.tid =
      some (fromConvOf td) := by
  have hl1 : alookup (ainsert r.to_json_converters td.tid (toConvOf td)) td.tid =
      some (toConvOf td) :=
    alookup_ainsert_self_of_or _ _ _ (Or.inl h1)
  have hl2 : alookup (ainsert r.from_json_converters td.tid (fromConvOf td)) td.tid =
      some (fromConvOf td) :=
    alookup_ainsert_self_of_or _ _ _ (Or.inl h2)
  have hs1 : (alookup (ainsert r.to_json_converters td.tid (toConvOf td)) td.tid).isSome := by
    rw [hl1]
    rfl
  have hs2 : (alookup (ainsert r.from_json_converters td.tid (fromConvOf td)) td.tid).isSome := by
    rw [hl2]
    rfl
  have eto : (addConverter td (addConverter td r)).to_json_converters =
      ainsert r.to_json_converters td.tid (toConvOf td) := by
    rw [addConverter_to, addConverter_to, ainsert_of_isSome _ _ _ hs1]
  have efrom : (addConverter td (addConverter td r)).from_json_converters =
      ainsert r.from_json_converters td.tid (fromConvOf td) := by
    rw [addConverter_from, addConverter_from, ainsert_of_isSome _ _ _ hs2]
  refine ⟨?_, ?_, ?_, ?_⟩
  · rw [eto]
    exact keyCount_ainsert_of_none _ _ _ h1
  · rw [efrom]
    exact keyCount_ainsert_of_none _ _ _ h2
  · rw [eto, hl1]
  · rw [efrom, hl2]

theorem c2_reregistration_witness :
    keyCount (addConverter point2DType (addConverter point2DType
        emptyRegistry)).to_json_converters point2DType.tid = 1 ∧
    keyCount (addConverter point2DType (addConverter point2DType
        emptyRegistry)).from_json_converters point2DType.tid = 1 ∧
    alookup (addConverter point2DType (addConverter point2DType
        emptyRegistry)).to_json_converters point2DType.tid =
      some (toConvOf point2DType) ∧
    alookup (addConverter point2DType (addConverter point2DType
        emptyRegistry)).from_json_converters point2DType.tid =
      some (fromConvOf point2DType) :=
  c2_reregistration point2DType emptyRegistry rfl rfl

/-- Claim C3 counterexample: nsA::Point (typeid 1) and nsB::Point
(typeid 2) both stamp the tag "Point"; after registering nsA::Point and
then nsB::Point, the name "Point" still maps to typeid 1 (the earlier
registration), not to typeid 2 as the later-registration-overwrites
claim requires: unordered_map::insert keeps the existing entry. -/
theorem c3_counterexample :
    alookup (addConverter pointB (addConverter pointA
        emptyRegistry)).type_names "Point" = some 1 ∧
    alookup (addConverter pointB (addConverter pointA
        emptyRegistry)).type_names "Point" ≠ some 2 := by
  constructor
  · rfl
  · intro h
    rw [show alookup (addConverter pointB (addConverter pointA
        emptyRegistry)).type_names "Point" = some 1 from rfl] at h
    cases h

/-- Claim C3 (amended): each type-name string maps to at most one typeid
(the name table keeps unique keys), and when two registrations insert
the same name for different types the name afterwards keeps the typeid
of the EARLIER registration: every later insert of an already-bound name
is a no-op. -/
theorem c3_earlier_wins (r : Registry) (td : CppType) :
    (∀ n t, alookup r.type_names n = some t →
       alookup (addConverter td r).type_names n = some t) ∧
    (uniqKeys r.type_names → uniqKeys (addConverter td r).type_names) := by
  rw [addConverter_names]
  rcases hg : (td.toJsonFn td.defaultVal Json.null).getField "__type" with _ | j
  · constructor
    · intro n t h
      exact alookup_ainsert_preserve _ _ _ _ _ h
    · intro h
      exact uniqKeys_ainsert _ _ _ h
  · cases j with
    | str s =>
        constructor
        · intro n t h
          exact alookup_ainsert_preserve _ _ _ _ _
            (alookup_ainsert_preserve _ _ _ _ _ h)
        · intro h
          exact uniqKeys_ainsert _ _ _ (uniqKeys_ainsert _ _ _ h)
    | null =>
        exact ⟨fun n t h => alookup_ainsert_preserve _ _ _ _ _ h,
          fun h => uniqKeys_ainsert _ _ _ h⟩
    | num q =>
        exact ⟨fun n t h => alookup_ainsert_preserve _ _ _ _ _ h,
          fun h => uniqKeys_ainsert _ _ _ h⟩
    | obj fs =>
        exact ⟨fun n t h => alookup_ainsert_preserve _ _ _ _ _ h,
          fun h => uniqKeys_ainsert _ _ _ h⟩

theorem c3_earlier_wins_witness :
    alookup (addConverter pointB (addConverter pointA
        emptyRegistry)).type_names "nsA::Point" = some 1 ∧
    uniqKeys (addConverter pointB (addConverter pointA
        emptyRegistry)).type_names := by
  constructor
  · exact (c3_earlier_wins (addConverter pointA emptyRegistry) pointB).1
      "nsA::Point" 1 rfl
  · exact (c3_earlier_wins (addConverter pointA emptyRegistry) pointB).2
      ((c3_earlier_wins emptyRegistry pointA).2
        (fun k => by simp [emptyRegistry, keyCount]))

/-- Claim C6: for a registered macro-declared type, decoding a node that
lacks at least one declared field fails with a missing-field error for a
field that is indeed absent, surfaced as a tagged error result via the
expected channel; no default value is filled in for the absent field. -/
theorem c6_missing_field (tid : Nat) (dm tn : String) (fields : List String)
    (dv : ValState) (r : Registry) (js : Json)
    (hfrom : alookup r.from_json_converters tid = none)
    (hmiss : ∃ n ∈ fields, js.getField n = none) :
    ∃ m, (fromJsonType (addConverter (macroType tid dm tn fields dv) r) js tid).2 =
        .error (.missingField m) ∧ js.getField m = none := by
  have hl : alookup (addConverter (macroType tid dm tn fields dv)
      r).from_json_converters tid =
      some (fromConvOf (macroType tid dm tn fields dv)) := by
    rw [addConverter_from]
    exact alookup_ainsert_self_of_or _ _ _ (Or.inl hfrom)
  rcases from_json_missing fields js dv hmiss with ⟨m, hrun, hnone⟩
  refine ⟨m, ?_, hnone⟩
  simp only [fromJsonType, hl]
  simp only [fromConvOf, macroType]
  rw [hrun]
  rfl

theorem c6_missing_field_witness :
    ∃ m, (fromJsonType (addConverter (macroType 0 "Point2D" "Point2D"
        ["x", "y"] [("x", Json.num 0), ("y", Json.num 0)]) emptyRegistry)
        (Json.obj [("x", Json.num 1), ("__type", Json.str "Point2D")]) 0).2 =
        .error (.missingField m) ∧
      (Json.obj [("x", Json.num 1), ("__type", Json.str "Point2D")]).getField m =
        none :=
  c6_missing_field 0 "Point2D" "Point2D" ["x", "y"]
    [("x", Json.num 0), ("y", Json.num 0)] emptyRegistry
    (Json.obj [("x", Json.num 1), ("__type", Json.str "Point2D")]) rfl
    ⟨"y", by simp, rfl⟩

/-- Claim C10 counterexample: register nsX::Point2D (typeid 11, tag
"Point2D", demangled "nsX::Point2D") and then the global Point2D
(typeid 12, tag and demangled name both "Point2D"). The second
registration's two type_names_.insert calls are both no-ops, because
"Point2D" is already a key bound to typeid 11: the name table is
exactly the one the first registration left, the demangled name of the
second type is not mapped to its typeid, and typeid 12 ends up with no
name mapping at all — refuting "always inserts the demangled name …
every registered TypeId ends up with at least one name mapping". -/
theorem c10_counterexample :
    (addConverter pointGlobal (addConverter pointNsX
        emptyRegistry)).type_names =
      [("nsX::Point2D", 11), ("Point2D", 11)] ∧
    alookup (addConverter pointGlobal (addConverter pointNsX
        emptyRegistry)).type_names "Point2D" = some 11 ∧
    ∀ n, alookup (addConverter pointGlobal (addConverter pointNsX
        emptyRegistry)).type_names n ≠ some 12 := by
  refine ⟨rfl, rfl, ?_⟩
  intro n h
  rw [show (addConverter pointGlobal (addConverter pointNsX
      emptyRegistry)).type_names = [("nsX::Point2D", 11), ("Point2D", 11)]
    from rfl] at h
  simp only [alookup] at h
  split_ifs at h <;> simp_all

/-- Claim C10 (amended): addConverter evaluates json js = T{}, i.e. it
default-constructs a T and converts it to JSON during registration; it
attempts to insert the demangled name of T (that key is present in the
table afterwards, and bound to typeid(T) whenever the string was not
already claimed by a distinct earlier type), and when the JSON of the
default instance carries a "__type" string it attempts to insert that
string too (so that key is present afterwards); since every insert
keeps an existing binding, the registered typeid ends up with at least
one name mapping only under the same proviso — when an earlier distinct
type already claimed T's demangled string (for instance through its
stamped tag), both inserts are no-ops and typeid(T) may get none. -/
theorem c10_registration_names (td : CppType) (r : Registry) :
    (alookup (addConverter td r).type_names td.demangled).isSome ∧
    ((alookup r.type_names td.demangled = none ∨
        alookup r.type_names td.demangled = some td.tid) →
      alookup (addConverter td r).type_names td.demangled = some td.tid) ∧
    (∀ s, (td.toJsonFn td.defaultVal Json.null).getField "__type" =
        some (Json.str s) →
      (alookup (addConverter td r).type_names s).isSome) ∧
    ((alookup r.type_names td.demangled = none ∨
        alookup r.type_names td.demangled = some td.tid) →
      ∃ n, alookup (addConverter td r).type_names n = some td.tid) := by
  rw [addConverter_names]
  have hdm : ∀ h : alookup r.type_names td.demangled = none ∨
      alookup r.type_names td.demangled = some td.tid,
      alookup (ainsert
        (match (td.toJsonFn td.defaultVal Json.null).getField "__type" with
          | some (Json.str s) => ainsert r.type_names s td.tid
          | _ => r.type_names)
        td.demangled td.tid) td.demangled = some td.tid := by
    intro h
    rcases hg : (td.toJsonFn td.defaultVal Json.null).getField "__type" with _ | j
    · exact alookup_ainsert_self_of_or _ _ _ h
    · cases j with
      | str s =>
          exact alookup_ainsert_self_of_or _ _ _ (alookup_ainsert_or _ _ _ _ h)
      | null => exact alookup_ainsert_self_of_or _ _ _ h
      | num q => exact alookup_ainsert_self_of_or _ _ _ h
      | obj fs => exact alookup_ainsert_self_of_or _ _ _ h
  refine ⟨alookup_ainsert_isSome _ _ _, hdm, ?_, fun h => ⟨td.demangled, hdm h⟩⟩
  intro s hs
  rw [hs]
  exact alookup_ainsert_isSome_preserve _ _ _ _ (alookup_ainsert_isSome _ _ _)

theorem c10_registration_names_witness :
    (alookup (addConverter pointA emptyRegistry).type_names "nsA::Point").isSome ∧
    alookup (addConverter pointA emptyRegistry).type_names "nsA::Point" = some 1 ∧
    (alookup (addConverter pointA emptyRegistry).type_names "Point").isSome ∧
    ∃ n, alookup (addConverter pointA emptyRegistry).type_names n = some 1 := by
  have h := c10_registration_names pointA emptyRegistry
  exact ⟨h.1, h.2.1 (Or.inl rfl), h.2.2.1 "Point" rfl, h.2.2.2 (Or.inl rfl)⟩

/-- Claim C1: encode-decode round trip. For every macro-declared type
(field names distinct from the reserved "__type" tag stamped by the
generated to_json) freshly registered into any registry, encoding an
arbitrary value of the type with toJson succeeds, and decoding the
produced node back through fromJson with the typeid yields an erased
value of the same typeid whose every declared field equals the
original's. -/
theorem c1_round_trip (tid : Nat) (dm tn : String) (fields : List String)
    (dv : ValState) (g : String → Json) (r : Registry) (dst : Json)
    (hty : "__type" ∉ fields)
    (hto : alookup r.to_json_converters tid = none)
    (hfrom : alookup r.from_json_converters tid = none) :
    ∃ node v,
      (toJson (addConverter (macroType tid dm tn fields dv) r)
          { tid := tid, val := mkVal fields g } dst).2 = some (true, node) ∧
      (fromJsonType (addConverter (macroType tid dm tn fields dv) r) node tid).2 =
          .ok { tid := tid, val := v } ∧
      ∀ n ∈ fields, alookup v n = some (g n) := by
  have hta : alookup (addConverter (macroType tid dm tn fields dv)
      r).to_json_converters tid = some (toConvOf (macroType tid dm tn fields dv)) := by
    rw [addConverter_to]
    exact alookup_ainsert_self_of_or _ _ _ (Or.inl hto)
  have hfa : alookup (addConverter (macroType tid dm tn fields dv)
      r).from_json_converters tid =
      some (fromConvOf (macroType tid dm tn fields dv)) := by
    rw [addConverter_from]
    exact alookup_ainsert_self_of_or _ _ _ (Or.inl hfrom)
  have hfields : ∀ f ∈ fields,
      (to_json tn fields (mkVal fields g) dst).getField f = some (g f) :=
    fun f hf => to_json_getField_mem tn fields g dst f hty hf
  rcases from_json_ok fields (to_json tn fields (mkVal fields g) dst) g dv hfields
    with ⟨v, hdec, hmem, _⟩
  refine ⟨to_json tn fields (mkVal fields g) dst, v, ?_, ?_, hmem⟩
  · simp only [toJson, hta]
    simp [toConvOf, AnyV.castPtr, macroType]
  · simp only [fromJsonType, hfa]
    simp only [fromConvOf, macroType]
    rw [hdec]
    rfl

theorem c1_round_trip_witness :
    ∃ node v,
      (toJson (addConverter (macroType 0 "Point2D" "Point2D" ["x", "y"]
          [("x", Json.num 0), ("y", Json.num 0)]) emptyRegistry)
          { tid := 0,
            val := mkVal ["x", "y"]
              (fun n => if n = "x" then Json.num 1 else Json.num 2) }
          Json.null).2 = some (true, node) ∧
      (fromJsonType (addConverter (macroType 0 "Point2D" "Point2D" ["x", "y"]
          [("x", Json.num 0), ("y", Json.num 0)]) emptyRegistry) node 0).2 =
          .ok { tid := 0, val := v } ∧
      ∀ n ∈ ["x", "y"],
        alookup v n = some (if n = "x" then Json.num 1 else Json.num 2) :=
  c1_round_trip 0 "Point2D" "Point2D" ["x", "y"]
    [("x", Json.num 0), ("y", Json.num 0)]
    (fun n => if n = "x" then Json.num 1 else Json.num 2) emptyRegistry
    Json.null (by decide) rfl rfl

end BTJson
